import Mathlib

/-!
The file `relationships.go` of neoism.

A shallow embedding of `relationships.go` (package `neo4j`): the
`RelationshipManager` operations `Get` and `Types`, the `Relationship` value
object with `populate`, `Id` and `Type`, and the standard-library routines
they call (`strconv.Itoa`, `strconv.Atoi`, `strings.Split`, `sort.Sort` on a
`sort.StringSlice`).

Conventions.

* A Go `string` is held as a `String`.  The strings of this file are
  URIs and JSON-decoded names, that is UTF-8 text.  The byte `/`, the sign
  bytes and the digit bytes never occur inside the encoding of another
  character, so splitting and parsing character by character is what Go does
  byte by byte.  Comparison (`Less`) is carried out on the UTF-8 bytes, as Go
  compares strings.
* A Go `int` is an `Int`; its width is `intSize` and enters through the range
  checks of `ParseInt`.
* A pointer that may be `nil` is an `Option`; a run-time panic is an explicit
  `Outcome.panic`.  This holds for the database handle and for the two
  pointers `res` and `ne` that `Get` hands to the transport by address
  (`Result: &res`, `Error: &ne`), which the transport can therefore reset.
* The REST transport is a collaborator of this file.  It is a field of the
  database handle (`Client.answer`); what it does to the outside is recorded in
  a `World` that every operation threads through.
-/

namespace neo4j

/-! ## Errors, panics, outcomes -/

/-- Modelled from the spec: the error values `NotFound`, `BadResponse` and
`FeatureUnavailable` are package-level variables declared in another file;
with any other value of Go's `error` interface (one made by the transport)
they are the errors this file can return. -/
inductive error where
  | NotFound
  | BadResponse
  | FeatureUnavailable
  | other (msg : String)
  deriving DecidableEq, Repr

/-- The two failures of `strconv` number parsing. -/
inductive NumError where
  | ErrSyntax
  | ErrRange
  deriving DecidableEq, Repr

/-- Causes of a run-time panic in this file. -/
inductive Panic where
  | nilDereference
  | indexOutOfRange
  | numError (e : NumError)
  deriving DecidableEq, Repr

/-- A call either returns a value or panics. -/
inductive Outcome (α : Type) where
  | ret (a : α)
  | panic (p : Panic)

/-! ## strconv -/

/-- Width of Go's `int` in bits. -/
def intSize : Nat := 64

/-- Largest `uint64`. -/
def maxUint64 : Nat := 2 ^ 64 - 1

/-- The byte `'0' + d`. -/
def digitChar (d : Nat) : Char := Char.ofNat (48 + d)

/-- The digit loop of `strconv.formatBits` in base 10: digits are produced from
the least significant one and written in front of what is already in the
buffer `a`.  The first argument bounds the number of rounds. -/
def formatBits : Nat → Nat → List Char → List Char
  | 0, u, a => digitChar u :: a
  | fuel + 1, u, a =>
    if 10 ≤ u then formatBits fuel (u / 10) (digitChar (u % 10) :: a)
    else digitChar u :: a

/-- `strconv.Itoa(i)`: the decimal rendering of `i`, with a leading `-` when
`i` is negative. -/
def Itoa (i : Int) : String :=
  if i < 0 then String.mk ('-' :: formatBits i.natAbs i.natAbs [])
  else String.mk (formatBits i.natAbs i.natAbs [])

/-- The loop of `strconv.ParseUint` for base 10 and 64 bits, `n` being the
value read so far.  A byte that is not a digit is a syntax error; a value that
leaves `uint64` is a range error, found before the multiplication (`n` at or
above the cutoff) or after the addition (wrap-around). -/
def parseUintLoop : List Char → Nat → Except NumError Nat
  | [], n => .ok n
  | c :: cs, n =>
    if 48 ≤ c.toNat ∧ c.toNat ≤ 57 then
      let d := c.toNat - 48
      if maxUint64 / 10 + 1 ≤ n then .error .ErrRange
      else
        let n10 := n * 10
        let n1 := (n10 + d) % 2 ^ 64
        if n1 < n10 ∨ maxUint64 < n1 then .error .ErrRange
        else parseUintLoop cs n1
    else .error .ErrSyntax

/-- `strconv.ParseUint(s, 10, 64)`. -/
def ParseUint (s : List Char) : Except NumError Nat :=
  match s with
  | [] => .error .ErrSyntax
  | _ :: _ => parseUintLoop s 0

/-- `strconv.ParseInt(s, 10, bitSize)`: an optional sign, then an unsigned
number that must fit the signed range of `bitSize` bits. -/
def ParseInt (s : List Char) (bitSize : Nat) : Except NumError Int :=
  match s with
  | [] => .error .ErrSyntax
  | c :: cs =>
    let neg := decide (c = '-')
    let rest := if c = '+' ∨ c = '-' then cs else s
    match ParseUint rest with
    | .error e => .error e
    | .ok un =>
      let cutoff := 2 ^ (bitSize - 1)
      if neg = false ∧ cutoff ≤ un then .error .ErrRange
      else if neg = true ∧ cutoff < un then .error .ErrRange
      else .ok (if neg then -(un : Int) else (un : Int))

/-- `strconv.Atoi(s)`, which is `ParseInt(s, 10, 0)` converted to `int`. -/
def Atoi (s : String) : Except NumError Int :=
  ParseInt s.data intSize

/-! ## strings -/

/-- The pieces of a text between the occurrences of a one-byte separator. -/
def splitChars (sep : Char) : List Char → List (List Char)
  | [] => [[]]
  | c :: cs =>
    if c = sep then [] :: splitChars sep cs
    else
      match splitChars sep cs with
      | [] => [[c]]
      | p :: ps => (c :: p) :: ps

/-- `strings.Split(s, sep)` for a separator of one byte. -/
def Split (s : String) (sep : Char) : List String :=
  (splitChars sep s.data).map String.mk

/-- Modelled from the spec: `join` is a helper of the package declared in
another file; the URI it builds here is `<base>/relationship/<id>`, the
fragments put together with `/` between them. -/
def join (base : String) (fragment : String) (last : String) : String :=
  base ++ "/" ++ fragment ++ "/" ++ last

/-! ## sort -/

/-- The UTF-8 bytes of a text. -/
def bytes (s : String) : List Nat :=
  s.data.flatMap fun c => (String.utf8EncodeChar c).map UInt8.toNat

/-- Lexicographic comparison of byte sequences. -/
def bytesLess : List Nat → List Nat → Bool
  | _, [] => false
  | [], _ :: _ => true
  | a :: as, b :: bs =>
    if a < b then true else if b < a then false else bytesLess as bs

/-- `sort.StringSlice.Less`: Go's `<` on strings, byte by byte. -/
def Less (a b : String) : Bool := bytesLess (bytes a) (bytes b)

/-- Go's `<=` on strings. -/
def LessEq (a b : String) : Prop := Less b a = false

instance (a b : String) : Decidable (LessEq a b) := by
  unfold LessEq; infer_instance

/-- One round of insertion: `x` goes in front of the first element it is
less than. -/
def insertSorted (x : String) : List String → List String
  | [] => [x]
  | y :: ys => if Less x y then x :: y :: ys else y :: insertSorted x ys

/-- `sort.Sort(sort.StringSlice(xs))`.  The library sort is not stable, but
`Less` orders whole strings and strings that compare equal are the same
string, so every correct sort yields the same slice; insertion sort, which the
library uses on short ranges, stands for it. -/
def sortStrings : List String → List String
  | [] => []
  | x :: xs => insertSorted x (sortStrings xs)

/-! ## The database handle and the transport -/

/-- `restclient.Method`, the HTTP verb of a request. -/
inductive Method where
  | GET
  | PUT
  | POST
  | DELETE
  deriving DecidableEq, Repr

/-- What a `restclient.RestRequest` says to the server.  Its `Result` and
`Error` fields are pointers the transport writes through; what it writes is
part of the `Response`. -/
structure RestRequest where
  Url : String
  Method : Method
  deriving DecidableEq, Repr

/-- A relationshipResponse represents data returned by the Neo4j server on a
Relationship operation. -/
structure relationshipResponse where
  HrefProperty : String
  HrefProperties : String
  HrefSelf : String
  HrefStart : String
  HrefType : String
  HrefEnd : String
  deriving DecidableEq, Repr

/-- The value of `new(relationshipResponse)`. -/
def relationshipResponse.zero : relationshipResponse :=
  { HrefProperty := "", HrefProperties := "", HrefSelf := "",
    HrefStart := "", HrefType := "", HrefEnd := "" }

/-- Modelled from the spec: `neoError`, the server's error payload, is
declared in another file of the package; this file only hands it to the
transport and to `logPretty`.  It is held as its text. -/
abbrev neoError := String

/-- Everything one call of the transport's `Do` hands back: the two values it
returns and the values it leaves behind the `Result` and `Error` pointers of
the request.  `rel` is the pointer `res` of `Get` after the call: `Get` passes
`&res`, so the transport may leave it pointing at a decoded struct or set it
to `nil` (`none`), as JSON decoding does on the body `null`.  `strs` is what
a `[]string` target holds and `ne` the pointer to the error payload.  A
transport that decodes nothing leaves the targets as they were: `res`
pointing at `relationshipResponse.zero`, the slice empty, `ne` pointing at an
empty payload. -/
structure Response where
  status : Int
  err : Option error
  rel : Option relationshipResponse
  strs : List String
  ne : Option neoError

/-- The REST client of the database handle, `restclient.Client`: its answer to
a request may depend on the requests issued before. -/
structure Client where
  answer : List RestRequest → RestRequest → Response

/-- Modelled from the spec: the server-capability metadata of the database
handle, declared in another file; this file reads the advertised
relationship-types endpoint, empty when the server has none. -/
structure serviceRoot where
  RelTypes : String

/-- Modelled from the spec: `Database` is declared in another file; these are
the parts this file uses, the base URL (`db.url.String()`), the REST client
and the server-capability metadata. -/
structure Database where
  url : String
  rc : Client
  info : serviceRoot

/-- What the operations do to the outside: the requests issued through the
transport and the payloads passed to `logPretty`, oldest first. -/
structure World where
  issued : List RestRequest
  logged : List (Option neoError)

/-- `rc.Do(rr)`: the request is issued and answered. -/
def Client.Do (rc : Client) (rr : RestRequest) (w : World) : Response × World :=
  (rc.answer w.issued rr, { w with issued := w.issued ++ [rr] })

/-- Modelled from the spec: `logPretty` is declared in another file; it does
the diagnostic logging of the server's error payload and returns nothing. -/
def logPretty (ne : Option neoError) (w : World) : World :=
  { w with logged := w.logged ++ [ne] }

/-! ## Relationship -/

/-- Modelled from the spec: `entity`, the struct embedded in `Relationship`,
is declared in another file; these are the fields this file reads and writes
through it, the back-reference to the database handle and the inherited
URIs. -/
structure entity where
  db : Option Database
  HrefSelf : String
  HrefProperty : String
  HrefProperties : String

/-- A Relationship is a directional connection between two Nodes, with an
optional set of arbitrary properties. -/
structure Relationship extends entity where
  HrefStart : String
  HrefType : String
  HrefEnd : String

/-- The value of `Relationship{}`. -/
def Relationship.zero : Relationship :=
  { db := none, HrefSelf := "", HrefProperty := "", HrefProperties := "",
    HrefStart := "", HrefType := "", HrefEnd := "" }

/-- Uses the values from a relationshipResponse object to populate the fields
on this Relationship.  The argument is a pointer that is read without a nil
check: on `nil` the first field access panics. -/
def Relationship.populate (r : Relationship) (res : Option relationshipResponse) :
    Outcome Relationship :=
  match res with
  | none => .panic .nilDereference
  | some res =>
    .ret { r with
      HrefProperty := res.HrefProperty
      HrefProperties := res.HrefProperties
      HrefSelf := res.HrefSelf
      HrefStart := res.HrefStart
      HrefType := res.HrefType
      HrefEnd := res.HrefEnd }

/-- Id gets the ID number of this Relationship. -/
def Relationship.Id (r : Relationship) : Outcome Int :=
  let parts := Split r.HrefSelf '/'
  match parts[parts.length - 1]? with
  | none => .panic .indexOutOfRange
  | some s =>
    match Atoi s with
    | .error e => .panic (.numError e)
    | .ok id => .ret id

/-- Type gets the type of this relationship. -/
def Relationship.Type (r : Relationship) : String :=
  r.HrefType

/-! ## RelationshipManager -/

structure RelationshipManager where
  db : Option Database

/-- Wrapper around the embedded restclient's Do() method (`do` in the
original). -/
def RelationshipManager.do_ (m : RelationshipManager) (rr : RestRequest) (w : World) :
    Outcome Response × World :=
  match m.db with
  | none => (.panic .nilDereference, w)
  | some db =>
    let out := db.rc.Do rr w
    (.ret out.1, out.2)

/-- Get fetches a Relationship from the DB by id. -/
def RelationshipManager.Get (m : RelationshipManager) (id : Int) (w : World) :
    Outcome (Relationship × Option error) × World :=
  let rel : Relationship := { Relationship.zero with db := m.db }
  match m.db with
  | none => (.panic .nilDereference, w)
  | some db =>
    let uri := join db.url "relationship" (Itoa id)
    let rr : RestRequest := { Url := uri, Method := .GET }
    match m.do_ rr w with
    | (.panic p, w1) => (.panic p, w1)
    | (.ret resp, w1) =>
      match resp.err with
      | some err => (.ret (rel, some err), logPretty resp.ne w1)
      | none =>
        let sw : Option error × World :=
          if resp.status = 200 then (none, w1)
          else if resp.status = 404 then (some .NotFound, w1)
          else (some .BadResponse, logPretty resp.ne w1)
        match rel.populate resp.rel with
        | .panic p => (.panic p, sw.2)
        | .ret rel1 => (.ret (rel1, sw.1), sw.2)

/-- Types lists all existing relationship types. -/
def RelationshipManager.Types (m : RelationshipManager) (w : World) :
    Outcome (List String × Option error) × World :=
  match m.db with
  | none => (.panic .nilDereference, w)
  | some db =>
    if db.info.RelTypes = "" then (.ret ([], some .FeatureUnavailable), w)
    else
      let c : RestRequest := { Url := db.info.RelTypes, Method := .GET }
      let out := db.rc.Do c w
      let resp := out.1
      let w1 := out.2
      match resp.err with
      | some err => (.ret (resp.strs, some err), logPretty resp.ne w1)
      | none =>
        if resp.status = 200 then (.ret (sortStrings resp.strs, none), w1)
        else (.ret (resp.strs, some .BadResponse), logPretty resp.ne w1)

/-! ## Vocabulary of the statements -/

/-- Whether a byte is a decimal digit, `'0'` to `'9'`. -/
def isDecimalDigit (c : Char) : Bool := decide (48 ≤ c.toNat ∧ c.toNat ≤ 57)

/-- The number that a run of decimal digits denotes, most significant digit
first, continuing from the value `n`. -/
def digitsValue : List Char → Nat → Nat
  | [], n => n
  | c :: cs, n => digitsValue cs (10 * n + (c.toNat - 48))

/-- The reading of "the text parses as a decimal integer `n`" that follows the
words of the spec: the text is an optional sign `+` or `-` followed by one or
more decimal digits and nothing else, and the number it denotes is a value of
`int`. -/
def decimalInt (s : String) : Option Int :=
  match s.data with
  | [] => none
  | c :: cs =>
    let digits := if c = '+' ∨ c = '-' then cs else c :: cs
    if digits ≠ [] ∧ digits.all isDecimalDigit = true then
      let v : Int := if c = '-' then -(digitsValue digits 0 : Int) else (digitsValue digits 0 : Int)
      if -(2 : Int) ^ 63 ≤ v ∧ v < (2 : Int) ^ 63 then some v else none
    else none

/-- The transport's answer to the request that `Get(id)` issues on the
database handle `db` in the world `w`. -/
def getReply (db : Database) (w : World) (id : Int) : Response :=
  db.rc.answer w.issued { Url := join db.url "relationship" (Itoa id), Method := .GET }

/-- The transport's answer to the request that `Types()` issues. -/
def typesReply (db : Database) (w : World) : Response :=
  db.rc.answer w.issued { Url := db.info.RelTypes, Method := .GET }

/-- A transport that gives the same answer to every request. -/
def constClient (resp : Response) : Client :=
  { answer := fun _ _ => resp }

/-- A database handle at `http://localhost:7474/db/data` over a transport
that always answers `resp`; `relTypes` is the advertised relationship-types
endpoint. -/
def sampleDb (relTypes : String) (resp : Response) : Database :=
  { url := "http://localhost:7474/db/data", rc := constClient resp,
    info := { RelTypes := relTypes } }

/-- The world before any request. -/
def World.empty : World := { issued := [], logged := [] }

/-- An answer with the given status and transport error that decodes
nothing. -/
def bareResponse (status : Int) (err : Option error) : Response :=
  { status := status, err := err, rel := some relationshipResponse.zero, strs := [],
    ne := some "" }

/-- An answer with the given status and no transport error whose body is the
JSON value `null`: decoding it through `&res` sets `res` to nil. -/
def nullBodyResponse (status : Int) : Response :=
  { status := status, err := none, rel := none, strs := [], ne := some "" }

/-- The body of the relationship 42 of the spec's example. -/
def knows42 : relationshipResponse :=
  { HrefProperty := "http://localhost:7474/db/data/relationship/42/properties/name",
    HrefProperties := "http://localhost:7474/db/data/relationship/42/properties",
    HrefSelf := "http://localhost:7474/db/data/relationship/42",
    HrefStart := "http://localhost:7474/db/data/node/1",
    HrefType := "KNOWS",
    HrefEnd := "http://localhost:7474/db/data/node/2" }

/-- The world after the one request of `Get(id)`. -/
def afterGet (db : Database) (w : World) (id : Int) : World :=
  { w with issued := w.issued ++
      [{ Url := join db.url "relationship" (Itoa id), Method := .GET }] }

/-- The Relationship `Get` builds from a decoded body: the handle of the
manager and the six URIs of the body. -/
def relOf (db : Database) (res : relationshipResponse) : Relationship :=
  { db := some db, HrefSelf := res.HrefSelf, HrefProperty := res.HrefProperty,
    HrefProperties := res.HrefProperties, HrefStart := res.HrefStart,
    HrefType := res.HrefType, HrefEnd := res.HrefEnd }

/-- The world after the one request of `Types()`. -/
def afterTypes (db : Database) (w : World) : World :=
  { w with issued := w.issued ++ [{ Url := db.info.RelTypes, Method := .GET }] }

/-! ## Status codes and errors of `Get` and `Types` -/

theorem Get_eq_of_transport_error (m : RelationshipManager) (db : Database) (w : World)
    (id : Int) (e : error) (hdb : m.db = some db) (herr : (getReply db w id).err = some e) :
    m.Get id w = (.ret ({ Relationship.zero with db := some db }, some e),
      logPretty (getReply db w id).ne (afterGet db w id)) := by
  unfold getReply at herr ⊢
  simp [RelationshipManager.Get, RelationshipManager.do_, Client.Do, hdb, herr, afterGet]

theorem Get_eq_of_200 (m : RelationshipManager) (db : Database) (w : World)
    (id : Int) (body : relationshipResponse) (hdb : m.db = some db)
    (herr : (getReply db w id).err = none) (h : (getReply db w id).status = 200)
    (hbody : (getReply db w id).rel = some body) :
    m.Get id w = (.ret (relOf db body, none), afterGet db w id) := by
  unfold getReply at herr h hbody
  simp [RelationshipManager.Get, RelationshipManager.do_, Client.Do, hdb, herr, h, hbody,
    afterGet, relOf, Relationship.populate, Relationship.zero]

theorem Get_eq_of_404 (m : RelationshipManager) (db : Database) (w : World)
    (id : Int) (body : relationshipResponse) (hdb : m.db = some db)
    (herr : (getReply db w id).err = none) (h : (getReply db w id).status = 404)
    (hbody : (getReply db w id).rel = some body) :
    m.Get id w = (.ret (relOf db body, some .NotFound), afterGet db w id) := by
  unfold getReply at herr h hbody
  simp [RelationshipManager.Get, RelationshipManager.do_, Client.Do, hdb, herr, h, hbody,
    afterGet, relOf, Relationship.populate, Relationship.zero]

theorem Get_eq_of_other (m : RelationshipManager) (db : Database) (w : World)
    (id : Int) (body : relationshipResponse) (hdb : m.db = some db)
    (herr : (getReply db w id).err = none)
    (h200 : (getReply db w id).status ≠ 200) (h404 : (getReply db w id).status ≠ 404)
    (hbody : (getReply db w id).rel = some body) :
    m.Get id w = (.ret (relOf db body, some .BadResponse),
      logPretty (getReply db w id).ne (afterGet db w id)) := by
  unfold getReply at herr h200 h404 hbody ⊢
  simp [RelationshipManager.Get, RelationshipManager.do_, Client.Do, hdb, herr, h200, h404,
    hbody, afterGet, relOf, Relationship.populate, Relationship.zero]

/-- When the transport gives no error and leaves `res` nil, `Get` panics in
`populate`, whatever the status. -/
theorem Get_eq_of_nil_result (m : RelationshipManager) (db : Database) (w : World)
    (id : Int) (hdb : m.db = some db) (herr : (getReply db w id).err = none)
    (hbody : (getReply db w id).rel = none) :
    ∃ w1, m.Get id w = (.panic .nilDereference, w1) := by
  unfold getReply at herr hbody
  simp [RelationshipManager.Get, RelationshipManager.do_, Client.Do, hdb, herr, hbody,
    Relationship.populate]

/-- Whenever `Get` returns a nil error, the transport gave no error and the
status was 200. -/
theorem Get_nil_error (m : RelationshipManager) (db : Database) (w : World) (id : Int)
    (hdb : m.db = some db) (rel : Relationship) (w1 : World)
    (h : m.Get id w = (.ret (rel, none), w1)) :
    (getReply db w id).err = none ∧ (getReply db w id).status = 200 := by
  cases herr : (getReply db w id).err with
  | some e =>
    rw [Get_eq_of_transport_error m db w id e hdb herr] at h
    simp at h
  | none =>
    refine ⟨rfl, ?_⟩
    cases hbody : (getReply db w id).rel with
    | none =>
      obtain ⟨w2, h2⟩ := Get_eq_of_nil_result m db w id hdb herr hbody
      rw [h2] at h
      simp at h
    | some body =>
      by_contra h200
      by_cases h404 : (getReply db w id).status = 404
      · rw [Get_eq_of_404 m db w id body hdb herr h404 hbody] at h
        simp at h
      · rw [Get_eq_of_other m db w id body hdb herr h200 h404 hbody] at h
        simp at h

/-- The status switch of `Get` on an answer that left `res` in place: without
a transport error, every status other than 200 and 404 gives `BadResponse`. -/
theorem Get_other_status_of_body (m : RelationshipManager) (db : Database) (w : World)
    (id : Int) (body : relationshipResponse) (hdb : m.db = some db)
    (herr : (getReply db w id).err = none)
    (h200 : (getReply db w id).status ≠ 200) (h404 : (getReply db w id).status ≠ 404)
    (hbody : (getReply db w id).rel = some body) :
    ∃ rel w1, m.Get id w = (.ret (rel, some .BadResponse), w1) :=
  ⟨_, _, Get_eq_of_other m db w id body hdb herr h200 h404 hbody⟩

/-- C3, at the input where the code departs from it. The transport answers
`Get(7)` with status 201, no transport error and the body `null`, which leaves
`res` nil: `Get` does not return `BadResponse`, it panics on the nil
dereference in `populate`, after the switch has chosen `BadResponse` and
logged. The same status with `res` left in place returns `BadResponse`. -/
theorem Get_other_status_null_body_panics :
    (getReply (sampleDb "" (nullBodyResponse 201)) World.empty 7).status = 201 ∧
    (getReply (sampleDb "" (nullBodyResponse 201)) World.empty 7).err = none ∧
    RelationshipManager.Get { db := some (sampleDb "" (nullBodyResponse 201)) } 7 World.empty =
      (.panic .nilDereference,
        logPretty (some "") (afterGet (sampleDb "" (nullBodyResponse 201)) World.empty 7)) ∧
    (∀ rel err w1,
      RelationshipManager.Get { db := some (sampleDb "" (nullBodyResponse 201)) } 7
        World.empty ≠ (.ret (rel, err), w1)) ∧
    RelationshipManager.Get { db := some (sampleDb "" (bareResponse 201 none)) } 7 World.empty =
      (.ret (relOf (sampleDb "" (bareResponse 201 none)) relationshipResponse.zero,
          some .BadResponse),
        logPretty (some "") (afterGet (sampleDb "" (bareResponse 201 none)) World.empty 7)) := by
  refine ⟨rfl, rfl, rfl, ?_, rfl⟩
  intro rel err w1 h
  have h2 : RelationshipManager.Get { db := some (sampleDb "" (nullBodyResponse 201)) } 7
      World.empty = (.panic .nilDereference,
        logPretty (some "") (afterGet (sampleDb "" (nullBodyResponse 201)) World.empty 7)) :=
    rfl
  rw [h2] at h
  simp at h

/-- C2, as the code has it. When the transport answers `Get(id)` with status
404 and no transport error and leaves `res` pointing at a response struct,
`Get` returns the `NotFound` error and a Relationship whose database
back-reference is the manager's handle and whose URIs are those of the
response struct; they are all empty when the transport decoded nothing into
it. -/
theorem Get_404_NotFound (m : RelationshipManager) (db : Database) (w : World) (id : Int)
    (body : relationshipResponse)
    (hdb : m.db = some db) (herr : (getReply db w id).err = none)
    (h404 : (getReply db w id).status = 404)
    (hbody : (getReply db w id).rel = some body) :
    ∃ rel w1, m.Get id w = (.ret (rel, some .NotFound), w1) ∧
      rel.db = m.db ∧
      rel.HrefSelf = body.HrefSelf ∧
      rel.HrefProperty = body.HrefProperty ∧
      rel.HrefProperties = body.HrefProperties ∧
      rel.HrefStart = body.HrefStart ∧
      rel.HrefType = body.HrefType ∧
      rel.HrefEnd = body.HrefEnd ∧
      (body = relationshipResponse.zero →
        rel.HrefSelf = "" ∧ rel.HrefProperty = "" ∧ rel.HrefProperties = "" ∧
        rel.HrefStart = "" ∧ rel.HrefType = "" ∧ rel.HrefEnd = "") := by
  refine ⟨relOf db body, afterGet db w id,
    Get_eq_of_404 m db w id body hdb herr h404 hbody, hdb.symm, rfl, rfl, rfl, rfl, rfl, rfl,
    ?_⟩
  intro hz
  simp [relOf, hz, relationshipResponse.zero]

theorem Get_404_NotFound_witness :
    (getReply (sampleDb "" (bareResponse 404 none)) World.empty 42).status = 404 ∧
    ∃ rel w1, RelationshipManager.Get { db := some (sampleDb "" (bareResponse 404 none)) } 42
        World.empty = (.ret (rel, some .NotFound), w1) ∧
      rel.db = some (sampleDb "" (bareResponse 404 none)) ∧ rel.HrefSelf = "" :=
  ⟨rfl,
   match Get_404_NotFound { db := some (sampleDb "" (bareResponse 404 none)) }
      (sampleDb "" (bareResponse 404 none)) World.empty 42 relationshipResponse.zero
      rfl rfl rfl rfl with
   | ⟨rel, w1, h, hdb, _, _, _, _, _, _, hz⟩ => ⟨rel, w1, h, hdb, (hz rfl).1⟩⟩

/-- C2 as stated fails, at three 404 answers without a transport error. On one
that decodes nothing, `Get` returns `NotFound` with a Relationship whose URIs
are empty but whose database back-reference is set, so it is not the zero
value. On one that decodes a body, the returned Relationship carries the URIs
of that body, which are not empty. On one whose body is `null`, `Get` returns
nothing: it panics. -/
theorem Get_404_not_zero_value :
    ((getReply (sampleDb "" (bareResponse 404 none)) World.empty 42).status = 404 ∧
      (getReply (sampleDb "" (bareResponse 404 none)) World.empty 42).err = none ∧
      ∃ rel w1, RelationshipManager.Get { db := some (sampleDb "" (bareResponse 404 none)) } 42
          World.empty = (.ret (rel, some .NotFound), w1) ∧
        rel.HrefSelf = "" ∧ rel.HrefProperty = "" ∧ rel.HrefProperties = "" ∧
        rel.HrefStart = "" ∧ rel.HrefType = "" ∧ rel.HrefEnd = "" ∧
        rel.db.isSome = true ∧ rel ≠ Relationship.zero) ∧
    ((getReply (sampleDb "" { bareResponse 404 none with rel := some knows42 })
        World.empty 42).status = 404 ∧
      (getReply (sampleDb "" { bareResponse 404 none with rel := some knows42 })
        World.empty 42).err = none ∧
      ∃ rel w1, RelationshipManager.Get
          { db := some (sampleDb "" { bareResponse 404 none with rel := some knows42 }) } 42
          World.empty = (.ret (rel, some .NotFound), w1) ∧
        rel.HrefSelf = "http://localhost:7474/db/data/relationship/42" ∧
        rel.HrefType = "KNOWS" ∧ rel.HrefSelf ≠ "" ∧ rel.HrefType ≠ "") ∧
    ((getReply (sampleDb "" (nullBodyResponse 404)) World.empty 42).status = 404 ∧
      (getReply (sampleDb "" (nullBodyResponse 404)) World.empty 42).err = none ∧
      RelationshipManager.Get { db := some (sampleDb "" (nullBodyResponse 404)) } 42
          World.empty =
        (.panic .nilDereference,
          afterGet (sampleDb "" (nullBodyResponse 404)) World.empty 42)) := by
  refine ⟨⟨rfl, rfl, _, _, rfl, rfl, rfl, rfl, rfl, rfl, rfl, rfl, ?_⟩,
    ⟨rfl, rfl, _, _, rfl, rfl, rfl, by decide, by decide⟩, ⟨rfl, rfl, rfl⟩⟩
  intro h
  have h2 := congrArg (fun r : Relationship => r.db.isSome) h
  simp [Relationship.zero] at h2

theorem Types_eq_of_transport_error (m : RelationshipManager) (db : Database) (w : World)
    (e : error) (hdb : m.db = some db) (hrt : db.info.RelTypes ≠ "")
    (herr : (typesReply db w).err = some e) :
    m.Types w = (.ret ((typesReply db w).strs, some e),
      logPretty (typesReply db w).ne (afterTypes db w)) := by
  unfold typesReply at herr ⊢
  simp [RelationshipManager.Types, Client.Do, hdb, hrt, herr, afterTypes]

theorem Types_eq_of_200 (m : RelationshipManager) (db : Database) (w : World)
    (hdb : m.db = some db) (hrt : db.info.RelTypes ≠ "")
    (herr : (typesReply db w).err = none) (h : (typesReply db w).status = 200) :
    m.Types w = (.ret (sortStrings (typesReply db w).strs, none), afterTypes db w) := by
  unfold typesReply at herr h ⊢
  simp [RelationshipManager.Types, Client.Do, hdb, hrt, herr, h, afterTypes]

theorem Types_eq_of_not_200 (m : RelationshipManager) (db : Database) (w : World)
    (hdb : m.db = some db) (hrt : db.info.RelTypes ≠ "")
    (herr : (typesReply db w).err = none) (h : (typesReply db w).status ≠ 200) :
    m.Types w = (.ret ((typesReply db w).strs, some .BadResponse),
      logPretty (typesReply db w).ne (afterTypes db w)) := by
  unfold typesReply at herr h ⊢
  simp [RelationshipManager.Types, Client.Do, hdb, hrt, herr, h, afterTypes]

/-- C5. When the advertised relationship-types endpoint is the empty string,
`Types()` returns `FeatureUnavailable` with an empty list and leaves the world
as it was: no request is issued. -/
theorem Types_FeatureUnavailable (m : RelationshipManager) (db : Database) (w : World)
    (hdb : m.db = some db) (hrt : db.info.RelTypes = "") :
    m.Types w = (.ret ([], some .FeatureUnavailable), w) ∧
    (m.Types w).2.issued = w.issued := by
  have h : m.Types w = (.ret ([], some .FeatureUnavailable), w) := by
    simp [RelationshipManager.Types, hdb, hrt]
  exact ⟨h, by rw [h]⟩

theorem Types_FeatureUnavailable_witness :
    RelationshipManager.Types { db := some (sampleDb "" (bareResponse 200 none)) }
        { issued := [{ Url := "http://localhost:7474/db/data/", Method := .GET }],
          logged := [] } =
      (.ret ([], some .FeatureUnavailable),
        { issued := [{ Url := "http://localhost:7474/db/data/", Method := .GET }],
          logged := [] }) :=
  (Types_FeatureUnavailable { db := some (sampleDb "" (bareResponse 200 none)) }
    (sampleDb "" (bareResponse 200 none)) _ rfl rfl).1

/-- C6. With the endpoint advertised and no transport error, `Types()`
returns; its error is nil exactly when the status is 200, and is
`BadResponse` for every other status. -/
theorem Types_status_to_error (m : RelationshipManager) (db : Database) (w : World)
    (hdb : m.db = some db) (hrt : db.info.RelTypes ≠ "")
    (herr : (typesReply db w).err = none) :
    ∃ l e w1, m.Types w = (.ret (l, e), w1) ∧
      (e = none ↔ (typesReply db w).status = 200) ∧
      ((typesReply db w).status ≠ 200 → e = some .BadResponse) := by
  by_cases h : (typesReply db w).status = 200
  · exact ⟨_, _, _, Types_eq_of_200 m db w hdb hrt herr h, by simp [h], by simp [h]⟩
  · exact ⟨_, _, _, Types_eq_of_not_200 m db w hdb hrt herr h, by simp [h], by simp⟩

theorem Types_status_to_error_witness :
    ∃ l e w1, RelationshipManager.Types
        { db := some (sampleDb "http://localhost:7474/db/data/relationship/types"
          (bareResponse 503 none)) } World.empty = (.ret (l, e), w1) ∧
      (e = none ↔ (typesReply (sampleDb "http://localhost:7474/db/data/relationship/types"
          (bareResponse 503 none)) World.empty).status = 200) ∧
      ((typesReply (sampleDb "http://localhost:7474/db/data/relationship/types"
          (bareResponse 503 none)) World.empty).status ≠ 200 → e = some .BadResponse) :=
  Types_status_to_error _ (sampleDb "http://localhost:7474/db/data/relationship/types"
    (bareResponse 503 none)) World.empty rfl (by decide) rfl

/-- C7. When the transport's `Do` returns a non-nil error `e`, `Get(id)`
returns that `e`, and so does `Types()` when the endpoint is advertised,
whatever the status that comes with it. -/
theorem transport_error_passed_through (m : RelationshipManager) (db : Database) (w : World)
    (e : error) (hdb : m.db = some db) :
    (∀ id, (getReply db w id).err = some e →
      ∃ rel w1, m.Get id w = (.ret (rel, some e), w1)) ∧
    (db.info.RelTypes ≠ "" → (typesReply db w).err = some e →
      ∃ l w1, m.Types w = (.ret (l, some e), w1)) :=
  ⟨fun id herr => ⟨_, _, Get_eq_of_transport_error m db w id e hdb herr⟩,
   fun hrt herr => ⟨_, _, Types_eq_of_transport_error m db w e hdb hrt herr⟩⟩

theorem transport_error_passed_through_witness :
    (∃ rel w1, RelationshipManager.Get
        { db := some (sampleDb "http://localhost:7474/db/data/relationship/types"
          (bareResponse 404 (some (.other "connection refused")))) } 42 World.empty =
        (.ret (rel, some (.other "connection refused")), w1)) ∧
    (∃ l w1, RelationshipManager.Types
        { db := some (sampleDb "http://localhost:7474/db/data/relationship/types"
          (bareResponse 404 (some (.other "connection refused")))) } World.empty =
        (.ret (l, some (.other "connection refused")), w1)) :=
  ⟨(transport_error_passed_through _
      (sampleDb "http://localhost:7474/db/data/relationship/types"
        (bareResponse 404 (some (.other "connection refused")))) World.empty
      (.other "connection refused") rfl).1 42 rfl,
   (transport_error_passed_through _
      (sampleDb "http://localhost:7474/db/data/relationship/types"
        (bareResponse 404 (some (.other "connection refused")))) World.empty
      (.other "connection refused") rfl).2 (by decide) rfl⟩

/-- C9. For every decoded response body: when the transport answers `Get(id)`
with status 200 and no transport error and `res` points at that body, the
Relationship `Get` returns carries the six URIs of the body, field by field,
and `Type()` is the body's type string. -/
theorem Get_200_populates (m : RelationshipManager) (db : Database) (w : World) (id : Int)
    (body : relationshipResponse)
    (hdb : m.db = some db) (herr : (getReply db w id).err = none)
    (h200 : (getReply db w id).status = 200)
    (hbody : (getReply db w id).rel = some body) :
    ∃ rel w1, m.Get id w = (.ret (rel, none), w1) ∧
      rel.HrefSelf = body.HrefSelf ∧
      rel.HrefStart = body.HrefStart ∧
      rel.HrefEnd = body.HrefEnd ∧
      rel.HrefType = body.HrefType ∧
      rel.HrefProperty = body.HrefProperty ∧
      rel.HrefProperties = body.HrefProperties ∧
      rel.Type = body.HrefType :=
  ⟨relOf db body, afterGet db w id,
    Get_eq_of_200 m db w id body hdb herr h200 hbody, rfl, rfl, rfl, rfl, rfl, rfl, rfl⟩

theorem Get_200_populates_witness :
    (getReply (sampleDb "" { bareResponse 200 none with rel := some knows42 })
      World.empty 42).rel = some knows42 ∧
    ∃ rel w1, RelationshipManager.Get
        { db := some (sampleDb "" { bareResponse 200 none with rel := some knows42 }) } 42
        World.empty = (.ret (rel, none), w1) ∧
      rel.HrefSelf = "http://localhost:7474/db/data/relationship/42" ∧
      rel.Type = "KNOWS" :=
  ⟨rfl,
   match Get_200_populates _
      (sampleDb "" { bareResponse 200 none with rel := some knows42 })
      World.empty 42 knows42 rfl rfl rfl rfl with
   | ⟨rel, w1, h, hself, _, _, _, _, _, htype⟩ => ⟨rel, w1, h, hself, htype⟩⟩

/-! ## The order of strings and the sort -/

theorem bytesLess_irrefl (a : List Nat) : bytesLess a a = false := by
  induction a with
  | nil => rfl
  | cons x xs ih => simp [bytesLess, ih]

theorem bytesLess_trans (a b c : List Nat) (hab : bytesLess a b = true)
    (hbc : bytesLess b c = true) : bytesLess a c = true := by
  induction a generalizing b c with
  | nil =>
    cases b with
    | nil => simp [bytesLess] at hab
    | cons y ys =>
      cases c with
      | nil => simp [bytesLess] at hbc
      | cons z zs => simp [bytesLess]
  | cons x xs ih =>
    cases b with
    | nil => simp [bytesLess] at hab
    | cons y ys =>
      cases c with
      | nil => simp [bytesLess] at hbc
      | cons z zs =>
        simp only [bytesLess] at hab hbc ⊢
        by_cases hxy : x < y
        · by_cases hyz : y < z
          · have : x < z := by omega
            simp [this]
          · by_cases hzy : z < y
            · simp [hyz, hzy] at hbc
            · have : x < z := by omega
              simp [this]
        · by_cases hyx : y < x
          · simp [hxy, hyx] at hab
          · have hxy2 : x = y := by omega
            subst hxy2
            simp only [hxy, if_false] at hab
            by_cases hyz : x < z
            · simp [hyz]
            · by_cases hzy : z < x
              · simp [hyz, hzy] at hbc
              · simp only [hyz, hzy, if_false] at hbc ⊢
                exact ih ys zs hab hbc

theorem Less_asymm (a b : String) (h : Less a b = true) : Less b a = false := by
  cases hba : Less b a with
  | false => rfl
  | true =>
    have := bytesLess_trans _ _ _ h hba
    rw [bytesLess_irrefl] at this
    exact absurd this (by decide)

/-- An element that is less than `y` is not above anything `y` is not above. -/
theorem LessEq_of_Less_of_LessEq (x y z : String) (hxy : Less x y = true)
    (hyz : LessEq y z) : LessEq x z := by
  unfold LessEq at hyz ⊢
  cases hzx : Less z x with
  | false => rfl
  | true =>
    have := bytesLess_trans _ _ _ hzx hxy
    unfold Less at hyz
    rw [hyz] at this
    exact absurd this (by decide)

theorem bytesLess_total (a b : List Nat) (h : bytesLess b a = false) :
    bytesLess a b = true ∨ a = b := by
  induction a generalizing b with
  | nil =>
    cases b with
    | nil => exact Or.inr rfl
    | cons y ys => exact Or.inl rfl
  | cons x xs ih =>
    cases b with
    | nil => simp [bytesLess] at h
    | cons y ys =>
      simp only [bytesLess] at h ⊢
      by_cases hyx : y < x
      · simp [hyx] at h
      · by_cases hxy : x < y
        · simp [hxy]
        · have hxy2 : x = y := by omega
          subst hxy2
          simp only [hyx, if_false] at h ⊢
          rcases ih ys h with h1 | h1
          · exact Or.inl h1
          · exact Or.inr (by rw [h1])

/-- Go's `a <= b` on strings: `a < b`, or the two have the same bytes. -/
theorem LessEq_iff (a b : String) :
    LessEq a b ↔ (Less a b = true ∨ bytes a = bytes b) := by
  constructor
  · intro h
    exact bytesLess_total _ _ h
  · rintro (h | h)
    · exact Less_asymm a b h
    · unfold LessEq Less
      rw [h]
      exact bytesLess_irrefl _

theorem mem_insertSorted (x z : String) (l : List String) :
    z ∈ insertSorted x l ↔ z = x ∨ z ∈ l := by
  induction l with
  | nil => simp [insertSorted]
  | cons y ys ih =>
    unfold insertSorted
    split
    · simp
    · simp only [List.mem_cons, ih]
      tauto

theorem insertSorted_sorted (x : String) (l : List String)
    (h : List.Pairwise LessEq l) : List.Pairwise LessEq (insertSorted x l) := by
  induction l with
  | nil => simp [insertSorted]
  | cons y ys ih =>
    rw [List.pairwise_cons] at h
    unfold insertSorted
    split
    · rename_i hxy
      refine List.Pairwise.cons ?_ (List.Pairwise.cons h.1 h.2)
      intro z hz
      rcases List.mem_cons.1 hz with rfl | hz
      · exact Less_asymm _ _ hxy
      · exact LessEq_of_Less_of_LessEq _ _ _ hxy (h.1 z hz)
    · rename_i hxy
      refine List.Pairwise.cons ?_ (ih h.2)
      intro z hz
      rcases (mem_insertSorted x z ys).1 hz with rfl | hz
      · unfold LessEq
        simpa using hxy
      · exact h.1 z hz

theorem sortStrings_sorted (l : List String) : List.Pairwise LessEq (sortStrings l) := by
  induction l with
  | nil => simp [sortStrings]
  | cons x xs ih => exact insertSorted_sorted x _ ih

theorem insertSorted_perm (x : String) (l : List String) :
    List.Perm (insertSorted x l) (x :: l) := by
  induction l with
  | nil => simp [insertSorted]
  | cons y ys ih =>
    unfold insertSorted
    split
    · exact List.Perm.refl _
    · exact (List.Perm.cons y ih).trans (List.Perm.swap x y ys)

theorem sortStrings_perm (l : List String) : List.Perm (sortStrings l) l := by
  induction l with
  | nil => simp [sortStrings]
  | cons x xs ih => exact (insertSorted_perm x _).trans (List.Perm.cons x ih)

/-- What `Types()` returns with a nil error is the sorted list of the names the
transport decoded. -/
theorem Types_nil_error (m : RelationshipManager) (w : World) (l : List String) (w1 : World)
    (h : m.Types w = (.ret (l, none), w1)) :
    ∃ db, m.db = some db ∧ db.info.RelTypes ≠ "" ∧ (typesReply db w).err = none ∧
      (typesReply db w).status = 200 ∧ l = sortStrings (typesReply db w).strs := by
  cases hdb : m.db with
  | none => simp [RelationshipManager.Types, hdb] at h
  | some db =>
    refine ⟨db, rfl, ?_⟩
    by_cases hrt : db.info.RelTypes = ""
    · simp [RelationshipManager.Types, hdb, hrt] at h
    · cases herr : (typesReply db w).err with
      | some e =>
        rw [Types_eq_of_transport_error m db w e hdb hrt herr] at h
        simp at h
      | none =>
        by_cases h200 : (typesReply db w).status = 200
        · rw [Types_eq_of_200 m db w hdb hrt herr h200] at h
          simp at h
          exact ⟨hrt, rfl, h200, h.1.symm⟩
        · rw [Types_eq_of_not_200 m db w hdb hrt herr h200] at h
          simp at h

/-- C4. Whenever `Types()` returns a nil error, the list it returns is in
ascending byte-wise order: every element is `<=` every later one, and each
element is less than its successor or has the same bytes. -/
theorem Types_sorted (m : RelationshipManager) (w : World) (l : List String) (w1 : World)
    (h : m.Types w = (.ret (l, none), w1)) :
    List.Pairwise LessEq l ∧
    List.Chain' (fun a b => Less a b = true ∨ bytes a = bytes b) l := by
  obtain ⟨db, _, _, _, _, hl⟩ := Types_nil_error m w l w1 h
  subst hl
  refine ⟨sortStrings_sorted _, ?_⟩
  exact List.Chain'.imp (fun a b hab => (LessEq_iff a b).1 hab)
    (List.Pairwise.chain' (sortStrings_sorted _))

theorem Types_sorted_witness :
    RelationshipManager.Types
        { db := some (sampleDb "http://localhost:7474/db/data/relationship/types"
          { bareResponse 200 none with strs := ["LOVES", "KNOWS", "likes", "KNOWS"] }) }
        World.empty =
      (.ret (["KNOWS", "KNOWS", "LOVES", "likes"], none),
        afterTypes (sampleDb "http://localhost:7474/db/data/relationship/types"
          { bareResponse 200 none with strs := ["LOVES", "KNOWS", "likes", "KNOWS"] })
          World.empty) ∧
    List.Pairwise LessEq ["KNOWS", "KNOWS", "LOVES", "likes"] :=
  ⟨rfl, (Types_sorted _ World.empty ["KNOWS", "KNOWS", "LOVES", "likes"] _
    (show RelationshipManager.Types
        { db := some (sampleDb "http://localhost:7474/db/data/relationship/types"
          { bareResponse 200 none with strs := ["LOVES", "KNOWS", "likes", "KNOWS"] }) }
        World.empty = _ from rfl)).1⟩

/-- C10. Whenever `Types()` returns a nil error, the list it returns is a
permutation of the list the transport decoded: the same names, each as many
times, and the same length. -/
theorem Types_perm (m : RelationshipManager) (db : Database) (w : World) (l : List String)
    (w1 : World) (hdb : m.db = some db) (h : m.Types w = (.ret (l, none), w1)) :
    List.Perm l (typesReply db w).strs ∧ l.length = (typesReply db w).strs.length ∧
      (typesReply db w).status = 200 := by
  obtain ⟨db2, hdb2, _, _, h200, hl⟩ := Types_nil_error m w l w1 h
  rw [hdb] at hdb2
  cases hdb2
  subst hl
  exact ⟨sortStrings_perm _, (sortStrings_perm _).length_eq, h200⟩

theorem Types_perm_witness :
    List.Perm ["KNOWS", "KNOWS", "LOVES", "likes"] ["LOVES", "KNOWS", "likes", "KNOWS"] ∧
    ["KNOWS", "KNOWS", "LOVES", "likes"].length = 4 :=
  match Types_perm _ (sampleDb "http://localhost:7474/db/data/relationship/types"
      { bareResponse 200 none with strs := ["LOVES", "KNOWS", "likes", "KNOWS"] })
      World.empty ["KNOWS", "KNOWS", "LOVES", "likes"] _ rfl
      (show RelationshipManager.Types
        { db := some (sampleDb "http://localhost:7474/db/data/relationship/types"
          { bareResponse 200 none with strs := ["LOVES", "KNOWS", "likes", "KNOWS"] }) }
        World.empty =
        (.ret (["KNOWS", "KNOWS", "LOVES", "likes"], none),
          afterTypes (sampleDb "http://localhost:7474/db/data/relationship/types"
            { bareResponse 200 none with strs := ["LOVES", "KNOWS", "likes", "KNOWS"] })
            World.empty) from rfl) with
  | ⟨hp, hl, _⟩ => ⟨hp, hl⟩

/-! ## Number rendering and parsing, splitting, and `Id` -/

theorem maxUint64_eq : maxUint64 = 18446744073709551615 := by
  norm_num [maxUint64]

theorem digitChar_toNat (d : Nat) (h : d < 10) : (digitChar d).toNat = 48 + d := by
  interval_cases d <;> rfl

theorem parseUintLoop_digit (d : Nat) (hd : d < 10) (n : Nat) (cs : List Char)
    (hn : n * 10 + d ≤ maxUint64) :
    parseUintLoop (digitChar d :: cs) n = parseUintLoop cs (n * 10 + d) := by
  rw [maxUint64_eq] at hn
  have h1 : ¬ (maxUint64 / 10 + 1 ≤ n) := by
    rw [maxUint64_eq]; omega
  have h2 : (n * 10 + d) % 2 ^ 64 = n * 10 + d := by
    apply Nat.mod_eq_of_lt
    norm_num
    omega
  rw [parseUintLoop]
  simp only [digitChar_toNat d hd, h1, h2, Nat.add_sub_cancel_left]
  have h3 : ¬ (n * 10 + d < n * 10 ∨ maxUint64 < n * 10 + d) := by
    rw [maxUint64_eq]; omega
  have h4 : 48 + d ≤ 57 := by omega
  have h5 : ¬ (maxUint64 < n * 10 + d) := fun h => h3 (Or.inr h)
  simp [h4, h5]

theorem parseUintLoop_formatBits (fuel : Nat) : ∀ (u : Nat) (a : List Char),
    u ≤ fuel → u ≤ maxUint64 →
    parseUintLoop (formatBits fuel u a) 0 = parseUintLoop a u := by
  induction fuel with
  | zero =>
    intro u a hu _
    have : u = 0 := by omega
    subst this
    rw [formatBits, parseUintLoop_digit 0 (by omega) 0 a (by rw [maxUint64_eq]; omega)]
  | succ fuel ih =>
    intro u a hu hmax
    rw [formatBits]
    split
    · rename_i h10
      rw [ih (u / 10) _ (by omega) (by omega),
        parseUintLoop_digit (u % 10) (by omega) (u / 10) a (by omega)]
      congr 1
      omega
    · rw [parseUintLoop_digit u (by omega) 0 a (by omega)]
      simp


/-- Every byte `formatBits` writes is a decimal digit. -/
theorem formatBits_digits (fuel : Nat) : ∀ (u : Nat) (a : List Char), u ≤ fuel →
    ∀ c ∈ formatBits fuel u a, (48 ≤ c.toNat ∧ c.toNat ≤ 57) ∨ c ∈ a := by
  induction fuel with
  | zero =>
    intro u a hu c hc
    have : u = 0 := by omega
    subst this
    rw [formatBits] at hc
    rcases List.mem_cons.1 hc with rfl | hc
    · exact Or.inl (by rw [digitChar_toNat 0 (by omega)]; omega)
    · exact Or.inr hc
  | succ fuel ih =>
    intro u a hu c hc
    rw [formatBits] at hc
    split at hc
    · rcases ih (u / 10) _ (by omega) c hc with h | h
      · exact Or.inl h
      · rcases List.mem_cons.1 h with rfl | h
        · exact Or.inl (by rw [digitChar_toNat (u % 10) (by omega)]; omega)
        · exact Or.inr h
    · rcases List.mem_cons.1 hc with rfl | hc
      · exact Or.inl (by rw [digitChar_toNat u (by omega)]; omega)
      · exact Or.inr hc

theorem formatBits_ne_nil (fuel u : Nat) (a : List Char) : formatBits fuel u a ≠ [] := by
  induction fuel generalizing u a with
  | zero => simp [formatBits]
  | succ fuel ih =>
    rw [formatBits]
    split
    · exact ih _ _
    · simp

theorem ParseUint_formatBits (u : Nat) (h : u ≤ maxUint64) :
    ParseUint (formatBits u u []) = .ok u := by
  have h1 := parseUintLoop_formatBits u u [] (Nat.le_refl u) h
  cases hf : formatBits u u [] with
  | nil => exact absurd hf (formatBits_ne_nil _ _ _)
  | cons c cs =>
    rw [hf] at h1
    rw [ParseUint, h1, parseUintLoop]

/-- The text `Itoa` renders is read back by `Atoi` as the same number, for
every value of an `int`. -/
theorem Atoi_Itoa (id : Int) (hlo : -(2 : Int) ^ 63 ≤ id) (hhi : id < (2 : Int) ^ 63) :
    Atoi (Itoa id) = .ok id := by
  have hmax : id.natAbs ≤ maxUint64 := by
    rw [maxUint64_eq]; omega
  have hp := ParseUint_formatBits id.natAbs hmax
  unfold Atoi Itoa
  by_cases hneg : id < 0
  · simp only [hneg, if_true]
    rw [ParseInt]
    simp only [true_or, or_true, if_true, hp, decide_True, intSize]
    have h1 : ¬ (9223372036854775808 < id.natAbs) := by omega
    simp [h1]
    rw [abs_of_neg hneg]
    omega
  · simp only [hneg, if_false]
    cases hf : formatBits id.natAbs id.natAbs [] with
    | nil => exact absurd hf (formatBits_ne_nil _ _ _)
    | cons c cs =>
      have hc : 48 ≤ c.toNat ∧ c.toNat ≤ 57 := by
        have := formatBits_digits id.natAbs id.natAbs [] (Nat.le_refl _) c (by rw [hf]; simp)
        simpa using this
      have hminus : c ≠ '-' := by
        rintro rfl
        revert hc
        decide
      have hplus : c ≠ '+' := by
        rintro rfl
        revert hc
        decide
      rw [ParseInt]
      simp only [hminus, hplus, or_self, if_false, decide_False, ← hf, hp, intSize]
      have h1 : ¬ (9223372036854775808 ≤ id.natAbs) := by omega
      simp [h1]
      omega

theorem Itoa_no_slash (id : Int) : '/' ∉ (Itoa id).data := by
  have key : ∀ c ∈ formatBits id.natAbs id.natAbs [], c ≠ '/' := by
    intro c hc
    have := formatBits_digits id.natAbs id.natAbs [] (Nat.le_refl _) c hc
    rintro rfl
    revert this
    decide
  unfold Itoa
  split
  · intro h
    rcases List.mem_cons.1 h with h | h
    · exact absurd h (by decide)
    · exact key _ h rfl
  · intro h
    exact key _ h rfl


theorem splitChars_ne_nil (sep : Char) (s : List Char) : splitChars sep s ≠ [] := by
  cases s with
  | nil => simp [splitChars]
  | cons c cs =>
    rw [splitChars]
    split
    · simp
    · split <;> simp

theorem splitChars_no_sep (sep : Char) (s : List Char) (h : sep ∉ s) :
    splitChars sep s = [s] := by
  induction s with
  | nil => rfl
  | cons c cs ih =>
    have hc : c ≠ sep := fun e => h (by simp [e])
    have hcs : sep ∉ cs := fun e => h (List.mem_cons_of_mem _ e)
    rw [splitChars, if_neg hc, ih hcs]

/-- Splitting a text that has a separator: the pieces before it, then the
pieces after it. -/
theorem splitChars_append (sep : Char) (pre rest : List Char) :
    splitChars sep (pre ++ sep :: rest) = splitChars sep pre ++ splitChars sep rest := by
  induction pre with
  | nil => simp [splitChars]
  | cons c cs ih =>
    by_cases hc : c = sep
    · simp [splitChars, hc, ← ih]
    · rw [List.cons_append, splitChars, if_neg hc, ih, splitChars, if_neg hc]
      cases h : splitChars sep cs with
      | nil => exact absurd h (splitChars_ne_nil _ _)
      | cons p ps => simp

/-- The last piece of a split is the text after the last separator, the whole
text when there is none. -/
theorem splitChars_getLast (sep : Char) (s seg : List Char) (hseg : sep ∉ seg)
    (hs : s = seg ∨ ∃ pre, s = pre ++ sep :: seg) :
    (splitChars sep s).getLast? = some seg := by
  rcases hs with rfl | ⟨pre, rfl⟩
  · rw [splitChars_no_sep sep s hseg]
    rfl
  · rw [splitChars_append, splitChars_no_sep sep seg hseg]
    simp

/-- Every text is either free of the separator or ends in a separator followed
by a piece free of it. -/
theorem exists_last_segment (sep : Char) (s : List Char) :
    ∃ seg, sep ∉ seg ∧ (s = seg ∨ ∃ pre, s = pre ++ sep :: seg) := by
  induction s with
  | nil => exact ⟨[], by simp, Or.inl rfl⟩
  | cons c cs ih =>
    obtain ⟨seg, hseg, h | ⟨pre, h⟩⟩ := ih
    · subst h
      by_cases hc : c = sep
      · exact ⟨cs, hseg, Or.inr ⟨[], by simp [hc]⟩⟩
      · refine ⟨c :: cs, ?_, Or.inl rfl⟩
        intro hm
        rcases List.mem_cons.1 hm with e | e
        · exact hc e.symm
        · exact hseg e
    · exact ⟨seg, hseg, Or.inr ⟨c :: pre, by simp [h]⟩⟩

theorem Split_last (s seg : String) (hseg : '/' ∉ seg.data)
    (hs : s = seg ∨ ∃ pre : String, s = pre ++ "/" ++ seg) :
    (Split s '/')[(Split s '/').length - 1]? = some seg := by
  rw [← List.getLast?_eq_getElem?]
  unfold Split
  rw [List.getLast?_map, splitChars_getLast '/' s.data seg.data hseg]
  · rfl
  · rcases hs with rfl | ⟨pre, rfl⟩
    · exact Or.inl rfl
    · exact Or.inr ⟨pre.data, by simp [String.data_append]⟩

/-- What `Id()` does with a self-URI whose text after the last `/` is `seg`. -/
theorem Id_eq (r : Relationship) (seg : String) (hseg : '/' ∉ seg.data)
    (hs : r.HrefSelf = seg ∨ ∃ pre : String, r.HrefSelf = pre ++ "/" ++ seg) :
    r.Id = match Atoi seg with
      | .ok n => .ret n
      | .error e => .panic (.numError e) := by
  unfold Relationship.Id
  simp only [Split_last r.HrefSelf seg hseg hs]
  cases Atoi seg <;> rfl

/-- C1. When the transport answers `Get(id)` with status 200 and no transport
error, and the text after the last `/` of the self-URI of the decoded body is
the decimal rendering of `id`, `Get` returns a nil error and a Relationship
whose `Id()` is `id`. -/
theorem Get_200_Id (m : RelationshipManager) (db : Database) (w : World) (id : Int)
    (body : relationshipResponse)
    (hlo : -(2 : Int) ^ 63 ≤ id) (hhi : id < (2 : Int) ^ 63)
    (hdb : m.db = some db) (herr : (getReply db w id).err = none)
    (h200 : (getReply db w id).status = 200)
    (hbody : (getReply db w id).rel = some body)
    (hself : body.HrefSelf = Itoa id ∨
      ∃ pre : String, body.HrefSelf = pre ++ "/" ++ Itoa id) :
    ∃ rel w1, m.Get id w = (.ret (rel, none), w1) ∧ rel.Id = .ret id := by
  refine ⟨relOf db body, afterGet db w id,
    Get_eq_of_200 m db w id body hdb herr h200 hbody, ?_⟩
  rw [Id_eq (relOf db body) (Itoa id) (Itoa_no_slash id) hself, Atoi_Itoa id hlo hhi]

theorem Get_200_Id_witness :
    (getReply (sampleDb "" { bareResponse 200 none with rel := some knows42 })
      World.empty 42).status = 200 ∧
    ∃ rel w1, RelationshipManager.Get
        { db := some (sampleDb "" { bareResponse 200 none with rel := some knows42 }) } 42
        World.empty = (.ret (rel, none), w1) ∧ rel.Id = .ret 42 :=
  ⟨rfl, Get_200_Id _ (sampleDb "" { bareResponse 200 none with rel := some knows42 })
    World.empty 42 knows42 (by decide) (by decide) rfl rfl rfl rfl
    (Or.inr ⟨"http://localhost:7474/db/data/relationship", by decide⟩)⟩

theorem le_digitsValue (cs : List Char) : ∀ n, n ≤ digitsValue cs n := by
  induction cs with
  | nil => intro n; exact Nat.le_refl n
  | cons c cs ih =>
    intro n
    rw [digitsValue]
    exact Nat.le_trans (by omega) (ih _)

theorem parseUintLoop_digits (cs : List Char) : ∀ n, cs.all isDecimalDigit = true →
    n ≤ maxUint64 →
    parseUintLoop cs n =
      if digitsValue cs n ≤ maxUint64 then .ok (digitsValue cs n) else .error .ErrRange := by
  induction cs with
  | nil =>
    intro n _ hn
    simp [parseUintLoop, digitsValue, hn]
  | cons c cs ih =>
    intro n hall hn
    rw [List.all_cons, Bool.and_eq_true] at hall
    have hc : 48 ≤ c.toNat ∧ c.toNat ≤ 57 := by
      simpa [isDecimalDigit] using hall.1
    have hmono := le_digitsValue cs (10 * n + (c.toNat - 48))
    rw [maxUint64_eq] at hn
    rw [parseUintLoop, digitsValue, if_pos hc]
    by_cases hcut : maxUint64 / 10 + 1 ≤ n
    · rw [if_pos hcut, if_neg]
      rw [maxUint64_eq] at hcut ⊢
      omega
    · rw [if_neg hcut]
      rw [maxUint64_eq] at hcut
      by_cases hwrap : 2 ^ 64 ≤ n * 10 + (c.toNat - 48)
      · have h1 : (n * 10 + (c.toNat - 48)) % 2 ^ 64 < n * 10 := by
          norm_num at hwrap ⊢
          omega
        simp only [h1, true_or, if_true]
        rw [if_neg]
        rw [maxUint64_eq]
        norm_num at hwrap
        omega
      · have h1 : (n * 10 + (c.toNat - 48)) % 2 ^ 64 = n * 10 + (c.toNat - 48) := by
          apply Nat.mod_eq_of_lt
          omega
        have h2 : ¬ (n * 10 + (c.toNat - 48) < n * 10 ∨
            maxUint64 < n * 10 + (c.toNat - 48)) := by
          rw [maxUint64_eq]
          norm_num at hwrap
          omega
        simp only [h1, h2, if_false]
        have h3 : n * 10 + (c.toNat - 48) = 10 * n + (c.toNat - 48) := by omega
        rw [h3]
        apply ih _ hall.2
        rw [maxUint64_eq]
        norm_num at hwrap
        omega

theorem parseUintLoop_not_digits (cs : List Char) : ∀ n, cs.all isDecimalDigit = false →
    ∃ e, parseUintLoop cs n = .error e := by
  induction cs with
  | nil => intro n h; simp at h
  | cons c cs ih =>
    intro n h
    rw [parseUintLoop]
    by_cases hc : 48 ≤ c.toNat ∧ c.toNat ≤ 57
    · have hrest : cs.all isDecimalDigit = false := by
        have hd : isDecimalDigit c = true := by simpa [isDecimalDigit] using hc
        rw [List.all_cons, hd, Bool.true_and] at h
        exact h
      rw [if_pos hc]
      simp only []
      split
      · exact ⟨_, rfl⟩
      · split
        · exact ⟨_, rfl⟩
        · exact ih _ hrest
    · rw [if_neg hc]
      exact ⟨_, rfl⟩


/-- What `ParseUint` makes of a text, against the value of its digits. -/
theorem ParseUint_spec (ds : List Char) :
    (ds ≠ [] ∧ ds.all isDecimalDigit = true ∧ digitsValue ds 0 ≤ maxUint64 ∧
      ParseUint ds = .ok (digitsValue ds 0)) ∨
    ((ds = [] ∨ ds.all isDecimalDigit = false ∨ maxUint64 < digitsValue ds 0) ∧
      ∃ e, ParseUint ds = .error e) := by
  cases ds with
  | nil => exact Or.inr ⟨Or.inl rfl, _, rfl⟩
  | cons c cs =>
    rw [ParseUint]
    cases hall : (c :: cs).all isDecimalDigit with
    | false => exact Or.inr ⟨Or.inr (Or.inl rfl), parseUintLoop_not_digits _ 0 hall⟩
    | true =>
      rw [parseUintLoop_digits _ 0 hall (by rw [maxUint64_eq]; omega)]
      by_cases hv : digitsValue (c :: cs) 0 ≤ maxUint64
      · rw [if_pos hv]
        exact Or.inl ⟨by simp, rfl, hv, rfl⟩
      · rw [if_neg hv]
        exact Or.inr ⟨Or.inr (Or.inr (by omega)), _, rfl⟩

/-- `Atoi` accepts exactly the texts that are decimal integers in the range of
`int`, and returns the number they denote. -/
theorem Atoi_eq_decimalInt (s : String) :
    (match Atoi s with
      | .ok n => some n
      | .error _ => none) = decimalInt s := by
  unfold Atoi decimalInt
  cases hs : s.data with
  | nil => rfl
  | cons c cs =>
    rw [ParseInt]
    simp only [intSize]
    generalize (if c = '+' ∨ c = '-' then cs else c :: cs) = ds
    have hpow : (2 : Nat) ^ (64 - 1) = 9223372036854775808 := by norm_num
    have hpowi : (2 : Int) ^ 63 = 9223372036854775808 := by norm_num
    simp only [hpow, hpowi]
    rcases ParseUint_spec ds with ⟨hne, hall, hv, hp⟩ | ⟨hbad, e, hp⟩
    · rw [hp]
      rw [maxUint64_eq] at hv
      simp only [hne, hall, ne_eq, not_false_eq_true, and_self, if_true]
      generalize digitsValue ds 0 = V at hv ⊢
      by_cases hneg : c = '-'
      · simp only [hneg, decide_True, if_true, Bool.true_eq_false, false_and, if_false,
          true_and]
        by_cases hr : 9223372036854775808 < V
        · rw [if_pos hr, if_neg (by omega)]
        · rw [if_neg hr, if_pos (by omega)]
      · simp only [hneg, decide_False, if_false, Bool.false_eq_true, false_and, true_and]
        by_cases hr : 9223372036854775808 ≤ V
        · rw [if_pos hr, if_neg (by omega)]
        · rw [if_neg hr, if_pos (by omega)]
    · rw [hp]
      simp only []
      by_cases hok : ds ≠ [] ∧ ds.all isDecimalDigit = true
      · rw [if_pos hok]
        rcases hbad with h | h | h
        · exact absurd h hok.1
        · rw [hok.2] at h
          exact absurd h (by decide)
        · rw [maxUint64_eq] at h
          rw [if_neg]
          split <;> omega
      · rw [if_neg hok]

/-- C8. `Id()` reads the text after the last `/` of the self-URI, the whole
self-URI when it has no `/`; every self-URI has such a text. When the text is
a decimal integer `n` (what `Atoi` accepts), `Id()` returns `n`; otherwise it
panics with the parsing error, as it does on an empty self-URI and on one that
ends in `/`. A parsing error is the only panic of `Id()`: the index of the
last piece is never out of range. -/
theorem Id_last_segment (r : Relationship) :
    (∃ seg : String, '/' ∉ seg.data ∧
      (r.HrefSelf = seg ∨ ∃ pre : String, r.HrefSelf = pre ++ "/" ++ seg)) ∧
    (∀ seg : String, '/' ∉ seg.data →
      (r.HrefSelf = seg ∨ ∃ pre : String, r.HrefSelf = pre ++ "/" ++ seg) →
      (∀ n, decimalInt seg = some n → r.Id = .ret n) ∧
      (decimalInt seg = none → ∃ e, r.Id = .panic (.numError e)) ∧
      (∀ n, Atoi seg = .ok n → r.Id = .ret n) ∧
      (∀ e, Atoi seg = .error e → r.Id = .panic (.numError e))) ∧
    (r.HrefSelf = "" → r.Id = .panic (.numError .ErrSyntax)) ∧
    (∀ pre : String, r.HrefSelf = pre ++ "/" → r.Id = .panic (.numError .ErrSyntax)) ∧
    (∀ p, r.Id = .panic p → ∃ e, p = .numError e) ∧
    r.Id ≠ .panic .indexOutOfRange := by
  have hex : ∃ seg : String, '/' ∉ seg.data ∧
      (r.HrefSelf = seg ∨ ∃ pre : String, r.HrefSelf = pre ++ "/" ++ seg) := by
    obtain ⟨seg, hseg, h | ⟨pre, h⟩⟩ := exists_last_segment '/' r.HrefSelf.data
    · exact ⟨String.mk seg, hseg, Or.inl (String.ext h)⟩
    · exact ⟨String.mk seg, hseg, Or.inr ⟨String.mk pre,
        String.ext (by simp [String.data_append, h])⟩⟩
  have hempty : '/' ∉ ("" : String).data := by decide
  refine ⟨hex, ?_, ?_, ?_, ?_, ?_⟩
  · intro seg hseg hs
    have hid := Id_eq r seg hseg hs
    have hspec := Atoi_eq_decimalInt seg
    refine ⟨?_, ?_, ?_, ?_⟩
    · intro n hn
      rw [hn] at hspec
      rw [hid]
      cases ha : Atoi seg with
      | ok k =>
        rw [ha] at hspec
        cases hspec
        rfl
      | error e =>
        rw [ha] at hspec
        cases hspec
    · intro hn
      rw [hn] at hspec
      rw [hid]
      cases ha : Atoi seg with
      | ok k =>
        rw [ha] at hspec
        cases hspec
      | error e => exact ⟨e, rfl⟩
    · intro n hn
      rw [hid, hn]
    · intro e he
      rw [hid, he]
  · intro h
    rw [Id_eq r "" hempty (Or.inl h)]
    rfl
  · intro pre h
    rw [Id_eq r "" hempty (Or.inr ⟨pre, by
      rw [h]; exact String.ext (by simp [String.data_append])⟩)]
    rfl
  · obtain ⟨seg, hseg, hs⟩ := hex
    rw [Id_eq r seg hseg hs]
    intro p hp
    cases ha : Atoi seg with
    | ok k =>
      rw [ha] at hp
      cases hp
    | error e =>
      rw [ha] at hp
      cases hp
      exact ⟨e, rfl⟩
  · obtain ⟨seg, hseg, hs⟩ := hex
    rw [Id_eq r seg hseg hs]
    cases Atoi seg <;> simp

theorem Id_last_segment_witness :
    Relationship.Id (relOf (sampleDb "" (bareResponse 200 none)) knows42) = .ret 42 ∧
    (∃ e, Relationship.Id (relOf (sampleDb "" (bareResponse 200 none))
      { knows42 with HrefSelf := "http://localhost:7474/db/data/relationship/4x2" }) =
        .panic (.numError e)) :=
  ⟨((Id_last_segment (relOf (sampleDb "" (bareResponse 200 none)) knows42)).2.1 "42"
      (by decide) (Or.inr ⟨"http://localhost:7474/db/data/relationship", by decide⟩)).1 42
      (by decide),
   ((Id_last_segment (relOf (sampleDb "" (bareResponse 200 none))
      { knows42 with HrefSelf := "http://localhost:7474/db/data/relationship/4x2" })).2.1 "4x2"
      (by decide) (Or.inr ⟨"http://localhost:7474/db/data/relationship", by decide⟩)).2.1
      (by decide)⟩

end neo4j
